import Mathlib

/-!
Verification of the geo-heatmap rasterization series
(`src/ts/Series/GeoHeatmap/GeoHeatmapSeries.ts`) and the dashboard
edit-mode controller (`EditMode` class in the same source bundle).

JavaScript numeric arithmetic is modelled over `ℚ`; the JS `~~x`
coercion (ToInt32: truncation toward zero followed by wrapping into
the signed 32-bit range) is modelled exactly by `jsToInt32`, and
`Math.floor` / `Math.ceil` / `Math.round` by `Int.floor` / `Int.ceil` /
`round` (Mathlib's `round` is `⌊x + 1/2⌋`, which agrees with JS
`Math.round`, rounding half toward positive infinity).
-/

/-- Truncation toward zero of a rational number, as performed by the
first step of the JS ToInt32 coercion. -/
def jsTruncate (q : ℚ) : ℤ :=
  if 0 ≤ q then ⌊q⌋ else ⌈q⌉

/-- The JS `~~x` coercion (ToInt32): truncation toward zero, then
wrapping into the signed 32-bit range `[-2^31, 2^31)`. -/
def jsToInt32 (q : ℚ) : ℤ :=
  (jsTruncate q + 2 ^ 31) % 2 ^ 32 - 2 ^ 31

/- *
 *  GeoHeatmapSeries: the raster stage of `drawPoints`
 * -/

/-- Canvas width of the interpolation raster:
`canvas.width = ~~(360 / colsize) + 1`. -/
def canvasWidth (colsize : ℚ) : ℤ :=
  jsToInt32 (360 / colsize) + 1

/-- Canvas height of the interpolation raster:
`canvas.height = ~~(180 / rowsize) + 1`. -/
def canvasHeight (rowsize : ℚ) : ℤ :=
  jsToInt32 (180 / rowsize) + 1

/-- The pixel index a `(lon, lat)` point is rasterized to:
`Math.ceil(canvasWidth * (canvasHeight - 1 - (lat + 90) / rowsize)
 + (lon + 180) / colsize)`. -/
def scaledPointPos (colsize rowsize lon lat : ℚ) : ℤ :=
  ⌈(canvasWidth colsize : ℚ) *
    ((canvasHeight rowsize : ℚ) - 1 - (lat + 90) / rowsize) +
    (lon + 180) / colsize⌉

/-- The red/green/blue/alpha components parsed from the color string
returned by `colorAxis.toColor` (external to this module): the string
between the parentheses split at commas.  An `rgb(...)` string has no
alpha entry, modelled by `a = none`. -/
structure ParsedColor where
  r : ℚ
  g : ℚ
  b : ℚ
  a : Option ℚ
deriving DecidableEq

/-- The per-point options relevant to rasterization: `lon`, `lat` and
`value`, each possibly absent (JS `undefined`/`null`). -/
structure PointOptions where
  lon : Option ℚ
  lat : Option ℚ
  value : Option ℚ
deriving DecidableEq

/-- The `colorFromPoint` closure of `drawPoints`: takes the parsed
color-axis color of the point, sets the alpha entry to
`pick(rgba[3], 1.0) * 255`, then overwrites it with `0` when the
point's `value` is not defined. -/
def colorFromPoint (c : ParsedColor) (value : Option ℚ) : ℚ × ℚ × ℚ × ℚ :=
  let a3 := c.a.getD 1 * 255
  (c.r, c.g, c.b, if value.isSome then a3 else 0)

/-- The sequence of writes the raster loop performs into `pixelData`:
for each point whose `lon` and `lat` options are numbers, a 4-byte
write of `colorFromPoint p` at byte offset `scaledPointPos(lon, lat)
* 4` (the subsequent conversion of the rational components to clamped
bytes by `Uint8ClampedArray` is not needed by the claims). -/
def rasterWrites (colsize rowsize : ℚ)
    (toColor : PointOptions → ParsedColor) (points : List PointOptions) :
    List (ℤ × (ℚ × ℚ × ℚ × ℚ)) :=
  points.filterMap fun p =>
    match p.lon, p.lat with
    | some lon, some lat =>
        some (scaledPointPos colsize rowsize lon lat * 4,
              colorFromPoint (toColor p) p.value)
    | _, _ => none

/-- The claim-side description of the raster writes: for every point
with numeric `lon` and `lat`, a write at pixel index
`⌈width * (height - 1 - (lat + 90)/rowsize) + (lon + 180)/colsize⌉`
(byte offset: four times that) with `width = ⌊360/colsize⌋ + 1` and
`height = ⌊180/rowsize⌋ + 1`, to be compared with `rasterWrites`. -/
def specRasterWrites (colsize rowsize : ℚ)
    (toColor : PointOptions → ParsedColor) (points : List PointOptions) :
    List (ℤ × (ℚ × ℚ × ℚ × ℚ)) :=
  points.filterMap fun p =>
    match p.lon, p.lat with
    | some lon, some lat =>
        some (⌈((⌊(360 : ℚ) / colsize⌋ + 1 : ℤ) : ℚ) *
                (((⌊(180 : ℚ) / rowsize⌋ + 1 : ℤ) : ℚ) - 1 -
                  (lat + 90) / rowsize) +
                (lon + 180) / colsize⌉ * 4,
              colorFromPoint (toColor p) p.value)
    | _, _ => none

/- *
 *  GeoHeatmapSeries: canvas dimension sequence of `drawPoints`
 * -/

/-- A pixel-space point as returned by
`mapView.projectedUnitsToPixels` (external projection function). -/
structure PixelPoint where
  x : ℚ
  y : ℚ
deriving DecidableEq

/-- The pixel rectangle of `drawPoints`, obtained from the projected
corners of the series bounds: `topLeft` from `(x1, y2)` and
`bottomRight` from `(x2, y1)`. -/
structure Dims where
  x : ℚ
  y : ℚ
  width : ℚ
  height : ℚ
deriving DecidableEq

/-- The `dimensions` record of `drawPoints`:
`{ x: topLeft.x, y: topLeft.y, width: bottomRight.x - topLeft.x,
   height: bottomRight.y - topLeft.y }`. -/
def dimensionsOf (topLeft bottomRight : PixelPoint) : Dims :=
  ⟨topLeft.x, topLeft.y, bottomRight.x - topLeft.x,
   bottomRight.y - topLeft.y⟩

/-- The width of the upscaled interpolation canvas:
`~~(dimensions.width * blur)`. -/
def upscaledWidth (w blur : ℚ) : ℤ :=
  jsToInt32 (w * blur)

/-- The height of the upscaled interpolation canvas:
`~~((blur * dimensions.width) / canvasWidth) * canvasHeight`. -/
def upscaledHeight (w blur colsize rowsize : ℚ) : ℤ :=
  jsToInt32 (blur * w / (canvasWidth colsize : ℚ)) * canvasHeight rowsize

/-- The width of the projected output image: `~~dimensions.width`. -/
def projectedWidth (w : ℚ) : ℤ :=
  jsToInt32 w

/-- The height of the projected output image: `~~dimensions.height`. -/
def projectedHeight (h : ℚ) : ℤ :=
  jsToInt32 h

/-- The successive `(canvas.width, canvas.height)` assignments in the
raster branch of `drawPoints`: first the lon/lat raster, then the
upscaled interpolation canvas, finally the projected output image put
back onto the canvas. -/
def canvasSizeTrace (colsize rowsize blur : ℚ) (d : Dims) :
    List (ℤ × ℤ) :=
  [(canvasWidth colsize, canvasHeight rowsize),
   (upscaledWidth d.width blur, upscaledHeight d.width blur colsize rowsize),
   (projectedWidth d.width, projectedHeight d.height)]

/- *
 *  GeoHeatmapSeries: the projection sampling loop of `drawPoints`
 * -/

/-- Longitude normalization used in the projection sampling loop:
`lon - Math.floor((lon + 180) / 360) * 360`. -/
def normalizeLon (lon : ℚ) : ℚ :=
  lon - ⌊(lon + 180) / 360⌋ * 360

/-- A lon/lat coordinate as returned by `mapView.pixelsToLonLat`
(external inverse projection). -/
structure ProjCoords where
  lon : ℚ
  lat : ℚ
deriving DecidableEq

/-- The longitude of the sampled pixel after the conditional
normalization: normalized only when it lies strictly between
`-180 - lambda` and `180 - lambda`, where `lambda` is the first
projection rotation entry (default `0`). -/
def sampledLon (lambda lon : ℚ) : ℚ :=
  if -180 - lambda < lon ∧ lon < 180 - lambda then normalizeLon lon else lon

/-- The source column coordinate on the interpolation canvas:
`projected[0] * canvas.width / (360 * scale) + canvas.width / 2` with
`scale = 1`. -/
def cvs2PixelX (cw : ℤ) (lon : ℚ) : ℚ :=
  lon * (cw : ℚ) / (360 * 1) + (cw : ℚ) / 2

/-- The source row coordinate on the interpolation canvas:
`-1 * projected[1] * canvas.height / (180 * scale) + canvas.height / 2`
with `scale = 1`. -/
def cvs2PixelY (ch : ℤ) (lat : ℚ) : ℚ :=
  -1 * lat * (ch : ℚ) / (180 * 1) + (ch : ℚ) / 2

/-- The byte offset into the interpolation buffer the pixel is copied
from: `Math.floor(cvs2PixelY) * canvas.width * 4 +
Math.round(cvs2PixelX) * 4`. -/
def redPos (cw ch : ℤ) (lambda lon lat : ℚ) : ℤ :=
  ⌊cvs2PixelY ch lat⌋ * cw * 4 + round (cvs2PixelX cw (sampledLon lambda lon)) * 4

/-- The four channels written for one pixel of the projected output
image.  `cart` is the interpolation buffer (`cartesianImageData.data`)
as a byte-indexed function, `pc` the result of the inverse projection
`mapView.pixelsToLonLat` for this pixel.  When the inverse projection
yields nothing, or the source position falls outside the canvas, the
channels keep their initial value `0`. -/
def projectPixel (cw ch : ℤ) (lambda : ℚ) (cart : ℤ → ℕ)
    (pc : Option ProjCoords) : ℕ × ℕ × ℕ × ℕ :=
  match pc with
  | none => (0, 0, 0, 0)
  | some c =>
      if 0 ≤ cvs2PixelX cw (sampledLon lambda c.lon) ∧
          cvs2PixelX cw (sampledLon lambda c.lon) ≤ (cw : ℚ) ∧
          0 ≤ cvs2PixelY ch c.lat ∧ cvs2PixelY ch c.lat ≤ (ch : ℚ) then
        (cart (redPos cw ch lambda c.lon c.lat),
         cart (redPos cw ch lambda c.lon c.lat + 1),
         cart (redPos cw ch lambda c.lon c.lat + 2),
         cart (redPos cw ch lambda c.lon c.lat + 3))
      else (0, 0, 0, 0)

/-- The four channels stored in a row-major 4-channel buffer of row
length `cw` at a given row and column; the spec-side description of
where a projected pixel is copied from. -/
def bufferAt (cart : ℤ → ℕ) (cw row col : ℤ) : ℕ × ℕ × ℕ × ℕ :=
  (cart ((row * cw + col) * 4),
   cart ((row * cw + col) * 4 + 1),
   cart ((row * cw + col) * 4 + 2),
   cart ((row * cw + col) * 4 + 3))

/- *
 *  GeoHeatmapSeries: the control flow of `drawPoints`
 * -/

/-- What `drawPoints` does with its rendering environment. -/
inductive DrawAction where
  /-- Return without touching the canvas or delegating. -/
  | skip
  /-- Run the interpolation raster/projection pipeline. -/
  | renderInterpolated
  /-- Delegate to the inherited `MapSeries.drawPoints`. -/
  | callSuper
deriving DecidableEq

/-- The parts of the series/chart state that drive the branching of
`drawPoints`: the `interpolation` option, presence of `chart.mapView`,
`series.bounds`, the projected corner pixels, the canvas, the 2D
context and the color axis. -/
structure DrawPointsEnv where
  interpolation : Bool
  hasMapView : Bool
  bounds : Option (ℚ × ℚ × ℚ × ℚ)
  topLeft : Option PixelPoint
  bottomRight : Option PixelPoint
  hasCanvas : Bool
  hasContext : Bool
  hasColorAxis : Bool
deriving DecidableEq

/-- The branching of `drawPoints`: interpolation with a map view and
defined bounds enters the raster branch, where missing corner
projections or a missing canvas/context/color axis silently end the
call; otherwise the inherited `drawPoints` is applied. -/
def drawPointsAction (e : DrawPointsEnv) : DrawAction :=
  if e.interpolation && e.hasMapView && e.bounds.isSome then
    if e.topLeft.isSome && e.bottomRight.isSome then
      if e.hasCanvas && e.hasContext && e.hasColorAxis then
        DrawAction.renderInterpolated
      else DrawAction.skip
    else DrawAction.skip
  else DrawAction.callSuper

/- *
 *  EditMode: the dashboard edit-mode controller
 * -/

/-- The `EditGlobals.classNames.editModeEnabled` class name:
`'highcharts-dashboard-edit-' + 'enabled'`. -/
def editModeEnabledClass : String :=
  "highcharts-dashboard-edit-" ++ "enabled"

/-- Modelled from the spec: a transient toolbar DOM object
(`CellEditToolbar` / `RowEditToolbar` / `OptionsToolbar`, whose
classes are external to this bundle) is reduced to its visibility
state; a freshly constructed toolbar is not shown yet. -/
structure Toolbar where
  visible : Bool
deriving DecidableEq

/-- Modelled from the spec: a fresh toolbar starts hidden. -/
def Toolbar.build : Toolbar :=
  { visible := false }

/-- Modelled from the spec: `toolbar.hide()` makes the toolbar not
visible. -/
def Toolbar.hide (t : Toolbar) : Toolbar :=
  { t with visible := false }

/-- Modelled from the spec: the `EditContextMenu` class (external to
this bundle) is reduced to its `isVisible` flag; a freshly
constructed context menu starts hidden. -/
structure ContextMenu where
  isVisible : Bool
deriving DecidableEq

/-- Modelled from the spec: `new EditContextMenu(...)` yields a menu
that is not visible yet. -/
def ContextMenu.build : ContextMenu :=
  { isVisible := false }

/-- Modelled from the spec: `contextMenu.setVisible(v)` sets the
`isVisible` flag to `v`. -/
def ContextMenu.setVisible (m : ContextMenu) (v : Bool) : ContextMenu :=
  { m with isVisible := v }

/-- The `gui.layoutOptions` settings consulted by
`initLayoutResizer`. -/
structure GuiOptions where
  resize : Bool
  resizerJSON : Bool
deriving DecidableEq

/-- `classList.add`: appends the class unless already present. -/
def classListAdd (l : List String) (c : String) : List String :=
  if c ∈ l then l else l ++ [c]

/-- `classList.remove`: removes the class. -/
def classListRemove (l : List String) (c : String) : List String :=
  l.filter fun s => s != c

/-- The state of an `EditMode` controller: the private `active` flag,
the class list of the dashboard container, the lazily created
toolbars and context menu, presence of the context button element,
and the per-layout resizer presence. -/
structure EditModeState where
  active : Bool
  containerClasses : List String
  cellToolbar : Option Toolbar
  rowToolbar : Option Toolbar
  optionsToolbar : Option Toolbar
  contextButtonElement : Bool
  contextMenu : Option ContextMenu
  layoutResizers : List Bool
  gui : Option GuiOptions
deriving DecidableEq

/-- `initLayoutResizer`: gives the layout a resizer when the gui
options ask for one (`resize`) or carry a serialized one
(`resizerJSON`). -/
def initLayoutResizer (gui : Option GuiOptions) : Bool :=
  match gui with
  | some g => g.resize || g.resizerJSON
  | none => false

/-- `EditMode.isActive`. -/
def isActive (s : EditModeState) : Bool :=
  s.active

/-- `EditMode.activateEditMode`: sets `active`, initializes missing
resizers and toolbars, and adds the edit-mode-enabled class to the
dashboard container (the button-color CSS tweak is pure styling and
not part of the state). -/
def activateEditMode (s : EditModeState) : EditModeState :=
  { s with
    active := true
    layoutResizers := s.layoutResizers.map fun r =>
      if r then r else initLayoutResizer s.gui
    cellToolbar := some (s.cellToolbar.getD Toolbar.build)
    rowToolbar := some (s.rowToolbar.getD Toolbar.build)
    optionsToolbar := some (s.optionsToolbar.getD Toolbar.build)
    containerClasses := classListAdd s.containerClasses editModeEnabledClass }

/-- `EditMode.deactivateEditMode`: clears `active`, removes the
edit-mode-enabled class from the dashboard container, and hides the
cell and row toolbars when they exist. -/
def deactivateEditMode (s : EditModeState) : EditModeState :=
  { s with
    active := false
    containerClasses := classListRemove s.containerClasses editModeEnabledClass
    cellToolbar := s.cellToolbar.map Toolbar.hide
    rowToolbar := s.rowToolbar.map Toolbar.hide }

/-- `EditMode.onEditModeToggle`: deactivates when active, activates
when inactive. -/
def onEditModeToggle (s : EditModeState) : EditModeState :=
  if s.active then deactivateEditMode s else activateEditMode s

/-- `EditMode.initContextMenu`: constructs the context menu, provided
the context button element exists. -/
def initContextMenu (s : EditModeState) : EditModeState :=
  if s.contextButtonElement then
    { s with contextMenu := some ContextMenu.build }
  else s

/-- `EditMode.onContextBtnClick`: initializes the context menu when it
does not exist yet, then, when a menu exists, flips its visibility via
`setVisible(!isVisible)`. -/
def onContextBtnClick (s : EditModeState) : EditModeState :=
  let s1 := if s.contextMenu.isNone then initContextMenu s else s
  match s1.contextMenu with
  | some m => { s1 with contextMenu := some (m.setVisible (!m.isVisible)) }
  | none => s1

/- *
 *  Concrete sample inputs used by witnesses
 * -/

/-- A sample color-axis lookup assigning every point the same parsed
color with alpha `1/2`. -/
def sampleToColor : PointOptions → ParsedColor :=
  fun _ => ⟨10, 20, 30, some (1 / 2)⟩

/-- A small sample point list: one point with numeric lon/lat, one
with missing lon. -/
def samplePoints : List PointOptions :=
  [⟨some 10, some 20, some 5⟩, ⟨none, some 3, some 1⟩]

/-- A sample projected top-left corner. -/
def tlSample : PixelPoint := ⟨0, 0⟩

/-- A sample projected bottom-right corner. -/
def brSample : PixelPoint := ⟨100, 50⟩

/-- A rendering environment with interpolation enabled, a map view,
and everything present except the series bounds. -/
def envNoBounds : DrawPointsEnv :=
  { interpolation := true, hasMapView := true, bounds := none,
    topLeft := some ⟨0, 0⟩, bottomRight := some ⟨100, 50⟩,
    hasCanvas := true, hasContext := true, hasColorAxis := true }

/-- A rendering environment with interpolation enabled, a map view,
defined bounds and projected corners, but no canvas 2D context. -/
def envNoContext : DrawPointsEnv :=
  { interpolation := true, hasMapView := true,
    bounds := some (0, 0, 1, 1),
    topLeft := some ⟨0, 0⟩, bottomRight := some ⟨100, 50⟩,
    hasCanvas := true, hasContext := false, hasColorAxis := true }

/-- An edit-mode state with a context button element and no context
menu yet. -/
def sampleEditState : EditModeState :=
  { active := false, containerClasses := [],
    cellToolbar := none, rowToolbar := none, optionsToolbar := none,
    contextButtonElement := true, contextMenu := none,
    layoutResizers := [false], gui := some ⟨true, false⟩ }

/- *
 *  Helper lemmas
 * -/

/-- On nonnegative rationals below `2^31`, the JS `~~` coercion is
exactly `Int.floor`. -/
theorem jsToInt32_eq_floor (q : ℚ) (h0 : 0 ≤ q) (h1 : q < 2 ^ 31) :
    jsToInt32 q = ⌊q⌋ := by
  have hfl : 0 ≤ ⌊q⌋ := Int.floor_nonneg.mpr h0
  have hfu : ⌊q⌋ < 2 ^ 31 := by
    have hle : (⌊q⌋ : ℚ) ≤ q := Int.floor_le q
    have : (⌊q⌋ : ℚ) < ((2 ^ 31 : ℤ) : ℚ) := by push_cast; linarith
    exact_mod_cast this
  unfold jsToInt32 jsTruncate
  rw [if_pos h0]
  omega

/-- For positive column size (not absurdly small), the raster width
is `⌊360 / colsize⌋ + 1`. -/
theorem canvasWidth_eq_floor (colsize : ℚ) (hc : 0 < colsize)
    (hcb : 360 / colsize < 2 ^ 31) :
    canvasWidth colsize = ⌊(360 : ℚ) / colsize⌋ + 1 := by
  unfold canvasWidth
  rw [jsToInt32_eq_floor _ (by positivity) hcb]

/-- For positive row size (not absurdly small), the raster height is
`⌊180 / rowsize⌋ + 1`. -/
theorem canvasHeight_eq_floor (rowsize : ℚ) (hr : 0 < rowsize)
    (hrb : 180 / rowsize < 2 ^ 31) :
    canvasHeight rowsize = ⌊(180 : ℚ) / rowsize⌋ + 1 := by
  unfold canvasHeight
  rw [jsToInt32_eq_floor _ (by positivity) hrb]

/-- Removing a class from a class list leaves a list that does not
contain it. -/
theorem contains_classListRemove (l : List String) (c : String) :
    (classListRemove l c).contains c = false := by
  rw [Bool.eq_false_iff]
  intro hc
  have hmem : c ∈ classListRemove l c := by
    simpa [List.contains, List.elem_iff] using hc
  have hne := (List.mem_filter.mp hmem).2
  simp at hne

/- *
 *  Claim theorems
 * -/

/-- C5: for the default `colsize = 1` and `rowsize = 1` and every
point with `lon` in `[-180, 180]` and `lat` in `[-90, 90]`, the
rasterized pixel index lies in `[0, 361 * 181 - 1]`, so the 4-byte
write at byte offset `scaledPointPos * 4` stays inside the allocated
buffer of `361 * 181 * 4` bytes. -/
theorem scaledPointPos_write_in_allocated_buffer (lon lat : ℚ)
    (hlo1 : -180 ≤ lon) (hlo2 : lon ≤ 180)
    (hla1 : -90 ≤ lat) (hla2 : lat ≤ 90) :
    0 ≤ scaledPointPos 1 1 lon lat ∧
    scaledPointPos 1 1 lon lat ≤ 361 * 181 - 1 ∧
    scaledPointPos 1 1 lon lat * 4 + 4 ≤ 361 * 181 * 4 := by
  have hw : canvasWidth 1 = 361 := by
    rw [canvasWidth_eq_floor 1 (by norm_num) (by norm_num)]
    norm_num
  have hh : canvasHeight 1 = 181 := by
    rw [canvasHeight_eq_floor 1 (by norm_num) (by norm_num)]
    norm_num
  have hmul1 : (0 : ℚ) ≤ 361 * (90 - lat) :=
    mul_nonneg (by norm_num) (by linarith)
  have hmul2 : (361 : ℚ) * (90 - lat) ≤ 361 * 180 :=
    mul_le_mul_of_nonneg_left (by linarith) (by norm_num)
  have key1 : 0 ≤ scaledPointPos 1 1 lon lat := by
    unfold scaledPointPos
    rw [hw, hh]
    apply Int.ceil_nonneg
    push_cast
    nlinarith
  have key2 : scaledPointPos 1 1 lon lat ≤ 65340 := by
    unfold scaledPointPos
    rw [hw, hh, Int.ceil_le]
    push_cast
    nlinarith
  exact ⟨key1, by omega, by omega⟩

/-- C5 witness: instantiation at `lon = 10`, `lat = 20`. -/
theorem scaledPointPos_write_in_allocated_buffer_witness :
    ((-180 : ℚ) ≤ 10 ∧ (10 : ℚ) ≤ 180 ∧ (-90 : ℚ) ≤ 20 ∧ (20 : ℚ) ≤ 90) ∧
    (0 ≤ scaledPointPos 1 1 10 20 ∧
     scaledPointPos 1 1 10 20 ≤ 361 * 181 - 1 ∧
     scaledPointPos 1 1 10 20 * 4 + 4 ≤ 361 * 181 * 4) :=
  ⟨by norm_num,
   scaledPointPos_write_in_allocated_buffer 10 20
     (by norm_num) (by norm_num) (by norm_num) (by norm_num)⟩

/-- C9: the longitude normalization of the projection sampling loop
always lands in `[-180, 180)`, is the identity on inputs already in
`[-180, 180)`, and is idempotent. -/
theorem normalizeLon_range_identity_idem (lon : ℚ) :
    (-180 ≤ normalizeLon lon ∧ normalizeLon lon < 180) ∧
    (-180 ≤ lon → lon < 180 → normalizeLon lon = lon) ∧
    normalizeLon (normalizeLon lon) = normalizeLon lon := by
  have hrange : ∀ x : ℚ, -180 ≤ normalizeLon x ∧ normalizeLon x < 180 := by
    intro x
    have hf : (⌊(x + 180) / 360⌋ : ℚ) ≤ (x + 180) / 360 := Int.floor_le _
    have hc : (x + 180) / 360 < ⌊(x + 180) / 360⌋ + 1 :=
      Int.lt_floor_add_one _
    unfold normalizeLon
    constructor <;> linarith
  have hid : ∀ x : ℚ, -180 ≤ x → x < 180 → normalizeLon x = x := by
    intro x ha hb
    have hfl : ⌊(x + 180) / 360⌋ = 0 := by
      rw [Int.floor_eq_zero_iff, Set.mem_Ico]
      constructor
      · apply div_nonneg (by linarith) (by norm_num)
      · rw [div_lt_one (by norm_num)]
        linarith
    simp [normalizeLon, hfl]
  exact ⟨hrange lon, hid lon,
         hid (normalizeLon lon) (hrange lon).1 (hrange lon).2⟩

/-- C9 witness: instantiation at `lon = 50`, which lies in
`[-180, 180)`, discharging the identity hypotheses. -/
theorem normalizeLon_range_identity_idem_witness :
    ((-180 : ℚ) ≤ normalizeLon 50 ∧ normalizeLon 50 < 180) ∧
    normalizeLon 50 = 50 ∧
    normalizeLon (normalizeLon 50) = normalizeLon 50 :=
  ⟨(normalizeLon_range_identity_idem 50).1,
   (normalizeLon_range_identity_idem 50).2.1 (by norm_num) (by norm_num),
   (normalizeLon_range_identity_idem 50).2.2⟩

/-- C10: `colorFromPoint` returns alpha `0` for a point with no
defined value, and otherwise the color-axis alpha component
(defaulting to `1`) multiplied by `255`. -/
theorem colorFromPoint_alpha_channel (c : ParsedColor) (value : Option ℚ) :
    (colorFromPoint c value).2.2.2 =
      (match value with
       | none => 0
       | some _ => c.a.getD 1 * 255) := by
  cases value <;> simp [colorFromPoint]

/-- C6: `onEditModeToggle` negates the active flag, deactivating when
active and activating when inactive. -/
theorem editmode_toggle_negates_active (s : EditModeState) :
    isActive (onEditModeToggle s) = !isActive s ∧
    onEditModeToggle s =
      (if s.active then deactivateEditMode s else activateEditMode s) := by
  refine ⟨?_, rfl⟩
  cases h : s.active <;>
    simp [isActive, onEditModeToggle, activateEditMode,
          deactivateEditMode, h]

/-- C7: after `deactivateEditMode`, the controller is inactive, the
edit-mode-enabled class is gone from the dashboard container, and the
cell and row toolbars are hidden whenever they exist. -/
theorem editmode_deactivate_state (s : EditModeState) :
    isActive (deactivateEditMode s) = false ∧
    (deactivateEditMode s).containerClasses.contains editModeEnabledClass
      = false ∧
    (deactivateEditMode s).cellToolbar.all (fun t => !t.visible) = true ∧
    (deactivateEditMode s).rowToolbar.all (fun t => !t.visible) = true := by
  refine ⟨rfl, contains_classListRemove _ _, ?_, ?_⟩ <;>
    cases hs : s.cellToolbar <;> cases hr : s.rowToolbar <;>
      simp [deactivateEditMode, Toolbar.hide, hs, hr]

/-- C8: `onContextBtnClick` creates the context menu when missing
(provided a context button element exists) and flips its visibility:
afterwards `isVisible` is the negation of its previous value (a menu
created on this call counts as previously hidden). -/
theorem editmode_context_btn_click_flips_menu (s : EditModeState)
    (h : s.contextMenu.isSome = true ∨ s.contextButtonElement = true) :
    ((onContextBtnClick s).contextMenu.map ContextMenu.isVisible) =
      some (!((s.contextMenu.map ContextMenu.isVisible).getD false)) := by
  cases hm : s.contextMenu with
  | some m =>
      simp [onContextBtnClick, hm, ContextMenu.setVisible]
  | none =>
      rcases h with h | h
      · rw [hm] at h
        simp at h
      · simp [onContextBtnClick, hm, initContextMenu, h,
              ContextMenu.build, ContextMenu.setVisible]

/-- C8 witness: instantiation at a state with a context button and no
menu; the click creates the menu and makes it visible. -/
theorem editmode_context_btn_click_flips_menu_witness :
    (sampleEditState.contextMenu.isSome = true ∨
      sampleEditState.contextButtonElement = true) ∧
    ((onContextBtnClick sampleEditState).contextMenu.map
        ContextMenu.isVisible) =
      some (!((sampleEditState.contextMenu.map
        ContextMenu.isVisible).getD false)) :=
  ⟨Or.inr rfl,
   editmode_context_btn_click_flips_menu sampleEditState (Or.inr rfl)⟩

/-- C3 counterexample: with interpolation enabled, a map view present
and the series bounds undefined, `drawPoints` does not skip; it
delegates to the inherited `MapSeries.drawPoints`, which draws. -/
theorem drawPoints_undefined_bounds_delegates :
    drawPointsAction envNoBounds = DrawAction.callSuper ∧
    DrawAction.callSuper ≠ DrawAction.skip := by
  constructor
  · rfl
  · decide

/-- C3 amended: with interpolation enabled and a map view, when the
canvas 2D context is missing, `drawPoints` silently skips rendering
if the bounds are defined; when the bounds are undefined it instead
delegates to the inherited `drawPoints` (in neither case does the
interpolation pipeline run or an error get raised). -/
theorem drawPoints_missing_context_skip_or_delegate (e : DrawPointsEnv)
    (h1 : e.interpolation = true) (h2 : e.hasMapView = true)
    (h3 : e.hasContext = false) :
    drawPointsAction e =
      (if e.bounds.isSome then DrawAction.skip else DrawAction.callSuper) := by
  unfold drawPointsAction
  rw [h1, h2]
  cases hb : e.bounds <;> simp [h3]

/-- C3 witness: the missing-context environment with defined bounds
skips. -/
theorem drawPoints_missing_context_skip_or_delegate_witness :
    (envNoContext.interpolation = true ∧ envNoContext.hasMapView = true ∧
      envNoContext.hasContext = false) ∧
    drawPointsAction envNoContext =
      (if envNoContext.bounds.isSome then DrawAction.skip
       else DrawAction.callSuper) :=
  ⟨⟨rfl, rfl, rfl⟩,
   drawPoints_missing_context_skip_or_delegate envNoContext rfl rfl rfl⟩

/-- C1: the interpolation raster is allocated with width
`⌊360 / colsize⌋ + 1` and height `⌊180 / rowsize⌋ + 1` cells, and
every point with numeric `lon` and `lat` options is written into it
at pixel index `⌈width * (height - 1 - (lat + 90) / rowsize) +
(lon + 180) / colsize⌉` (byte offset four times the index). -/
theorem geoheatmap_raster_layout (colsize rowsize : ℚ)
    (hc : 0 < colsize) (hr : 0 < rowsize)
    (hcb : 360 / colsize < 2 ^ 31) (hrb : 180 / rowsize < 2 ^ 31)
    (toColor : PointOptions → ParsedColor) (points : List PointOptions) :
    canvasWidth colsize = ⌊(360 : ℚ) / colsize⌋ + 1 ∧
    canvasHeight rowsize = ⌊(180 : ℚ) / rowsize⌋ + 1 ∧
    rasterWrites colsize rowsize toColor points =
      specRasterWrites colsize rowsize toColor points := by
  have hw := canvasWidth_eq_floor colsize hc hcb
  have hh := canvasHeight_eq_floor rowsize hr hrb
  refine ⟨hw, hh, ?_⟩
  unfold rasterWrites specRasterWrites
  congr 1
  funext p
  obtain ⟨plon, plat, pval⟩ := p
  cases plon <;> cases plat <;> simp [scaledPointPos, hw, hh]

/-- C1 witness: instantiation at the default sizes `colsize = 1`,
`rowsize = 1` on the sample point list. -/
theorem geoheatmap_raster_layout_witness :
    ((0 : ℚ) < 1 ∧ (360 : ℚ) / 1 < 2 ^ 31 ∧ (180 : ℚ) / 1 < 2 ^ 31) ∧
    (canvasWidth 1 = ⌊(360 : ℚ) / 1⌋ + 1 ∧
     canvasHeight 1 = ⌊(180 : ℚ) / 1⌋ + 1 ∧
     rasterWrites 1 1 sampleToColor samplePoints =
       specRasterWrites 1 1 sampleToColor samplePoints) :=
  ⟨by norm_num,
   geoheatmap_raster_layout 1 1 (by norm_num) (by norm_num)
     (by norm_num) (by norm_num) sampleToColor samplePoints⟩

/-- C2: the raster branch of `drawPoints` double-buffers: it sizes the
intermediate interpolation canvas to width `⌊dimensions.width * blur⌋`
and height `⌊blur * dimensions.width / canvasWidth⌋ * canvasHeight`,
then replaces the canvas contents with the projected output image of
final width `⌊dimensions.width⌋` and height `⌊dimensions.height⌋`,
the pixel rectangle obtained by projecting the series bounds. -/
theorem geoheatmap_canvas_size_sequence (colsize rowsize blur : ℚ)
    (tl br : PixelPoint)
    (hc : 0 < colsize) (hr : 0 < rowsize) (hb : 0 ≤ blur)
    (hx : tl.x ≤ br.x) (hy : tl.y ≤ br.y)
    (hcb : 360 / colsize < 2 ^ 31) (hrb : 180 / rowsize < 2 ^ 31)
    (hwb : (br.x - tl.x) * blur < 2 ^ 31)
    (hw31 : br.x - tl.x < 2 ^ 31) (hh31 : br.y - tl.y < 2 ^ 31) :
    canvasSizeTrace colsize rowsize blur (dimensionsOf tl br) =
      [(⌊(360 : ℚ) / colsize⌋ + 1, ⌊(180 : ℚ) / rowsize⌋ + 1),
       (⌊(br.x - tl.x) * blur⌋,
        ⌊blur * (br.x - tl.x) / ((⌊(360 : ℚ) / colsize⌋ + 1 : ℤ) : ℚ)⌋ *
          (⌊(180 : ℚ) / rowsize⌋ + 1)),
       (⌊br.x - tl.x⌋, ⌊br.y - tl.y⌋)] := by
  have hwzero : 0 ≤ br.x - tl.x := by linarith
  have hhzero : 0 ≤ br.y - tl.y := by linarith
  have hw := canvasWidth_eq_floor colsize hc hcb
  have hh := canvasHeight_eq_floor rowsize hr hrb
  have hcw1 : (1 : ℚ) ≤ (canvasWidth colsize : ℚ) := by
    have h0 : 0 ≤ ⌊(360 : ℚ) / colsize⌋ := Int.floor_nonneg.mpr (by positivity)
    have h0q : (0 : ℚ) ≤ (⌊(360 : ℚ) / colsize⌋ : ℚ) := by exact_mod_cast h0
    rw [hw]
    push_cast
    linarith
  have e1 : upscaledWidth (br.x - tl.x) blur = ⌊(br.x - tl.x) * blur⌋ := by
    unfold upscaledWidth
    exact jsToInt32_eq_floor _ (mul_nonneg hwzero hb) hwb
  have e2 : upscaledHeight (br.x - tl.x) blur colsize rowsize =
      ⌊blur * (br.x - tl.x) / ((⌊(360 : ℚ) / colsize⌋ + 1 : ℤ) : ℚ)⌋ *
        (⌊(180 : ℚ) / rowsize⌋ + 1) := by
    unfold upscaledHeight
    have hnum : 0 ≤ blur * (br.x - tl.x) := mul_nonneg hb hwzero
    have hquot : blur * (br.x - tl.x) / (canvasWidth colsize : ℚ) ≤
        blur * (br.x - tl.x) := div_le_self hnum hcw1
    have hcomm : blur * (br.x - tl.x) = (br.x - tl.x) * blur := mul_comm _ _
    have hqb : blur * (br.x - tl.x) / (canvasWidth colsize : ℚ) < 2 ^ 31 := by
      linarith
    rw [jsToInt32_eq_floor _ (div_nonneg hnum (by linarith)) hqb, hw, hh]
  have e3 : projectedWidth (br.x - tl.x) = ⌊br.x - tl.x⌋ :=
    jsToInt32_eq_floor _ hwzero hw31
  have e4 : projectedHeight (br.y - tl.y) = ⌊br.y - tl.y⌋ :=
    jsToInt32_eq_floor _ hhzero hh31
  simp [canvasSizeTrace, dimensionsOf, hw, hh, e1, e2, e3, e4]

/-- C2 witness: instantiation at the default sizes and blur on the
sample projected corners. -/
theorem geoheatmap_canvas_size_sequence_witness :
    ((0 : ℚ) < 1 ∧ (0 : ℚ) ≤ 1 ∧
     tlSample.x ≤ brSample.x ∧ tlSample.y ≤ brSample.y ∧
     (360 : ℚ) / 1 < 2 ^ 31 ∧ (180 : ℚ) / 1 < 2 ^ 31 ∧
     (brSample.x - tlSample.x) * 1 < 2 ^ 31 ∧
     brSample.x - tlSample.x < 2 ^ 31 ∧ brSample.y - tlSample.y < 2 ^ 31) ∧
    canvasSizeTrace 1 1 1 (dimensionsOf tlSample brSample) =
      [(⌊(360 : ℚ) / 1⌋ + 1, ⌊(180 : ℚ) / 1⌋ + 1),
       (⌊(brSample.x - tlSample.x) * 1⌋,
        ⌊1 * (brSample.x - tlSample.x) / ((⌊(360 : ℚ) / 1⌋ + 1 : ℤ) : ℚ)⌋ *
          (⌊(180 : ℚ) / 1⌋ + 1)),
       (⌊brSample.x - tlSample.x⌋, ⌊brSample.y - tlSample.y⌋)] :=
  ⟨by norm_num [tlSample, brSample],
   geoheatmap_canvas_size_sequence 1 1 1 tlSample brSample
     (by norm_num) (by norm_num) (by norm_num)
     (by norm_num [tlSample, brSample]) (by norm_num [tlSample, brSample])
     (by norm_num) (by norm_num)
     (by norm_num [tlSample, brSample])
     (by norm_num [tlSample, brSample]) (by norm_num [tlSample, brSample])⟩

/-- C4: each pixel of the projected output image keeps its four zero
channels when the inverse projection yields no coordinate or the
source position lies outside `[0, canvas.width] × [0, canvas.height]`;
otherwise its four channels are copied from the interpolation buffer
at row `⌊cvs2PixelY⌋`, column `round cvs2PixelX`. -/
theorem geoheatmap_projected_pixel_copy (cw ch : ℤ) (lambda : ℚ)
    (cart : ℤ → ℕ) (pc : Option ProjCoords) :
    projectPixel cw ch lambda cart pc =
      (match pc with
       | none => (0, 0, 0, 0)
       | some c =>
           if 0 ≤ cvs2PixelX cw (sampledLon lambda c.lon) ∧
               cvs2PixelX cw (sampledLon lambda c.lon) ≤ (cw : ℚ) ∧
               0 ≤ cvs2PixelY ch c.lat ∧ cvs2PixelY ch c.lat ≤ (ch : ℚ) then
             bufferAt cart cw ⌊cvs2PixelY ch c.lat⌋
               (round (cvs2PixelX cw (sampledLon lambda c.lon)))
           else (0, 0, 0, 0)) := by
  cases pc with
  | none => rfl
  | some c =>
      simp only [projectPixel, bufferAt]
      have hpos : redPos cw ch lambda c.lon c.lat =
          (⌊cvs2PixelY ch c.lat⌋ * cw +
            round (cvs2PixelX cw (sampledLon lambda c.lon))) * 4 := by
        unfold redPos
        ring
      rw [hpos]
